import Mathlib

/-!
Verification of the validation engine of `openapi-backend` (`src/validation.ts`).

The engine compiles, per API operation, JSON-Schema validators for request
parameters, JSON request bodies and JSON responses, and evaluates them at
runtime.  This development shallowly embeds the data model and the four
functions of `OpenAPIValidator` — the constructor, `validateRequest`,
`validateResponse`, `buildRequestValidatorsForOperation` and
`buildResponseValidatorForOperation` — together with the fragment of the
external JSON-Schema engine (Ajv) and of the external router that they use.
-/

namespace OpenAPIBackend

/-- JSON values.  Numbers are modelled as integers, which covers every schema
and payload exercised here; `obj` keeps fields as an ordered association
list, mirroring JavaScript object property order. -/
inductive Json where
  | null
  | boolean (b : Bool)
  | num (n : Int)
  | str (s : String)
  | arr (items : List Json)
  | obj (fields : List (String × Json))
deriving Repr

/-- The fragment of JSON Schema that the engine synthesizes and that OpenAPI
documents feed into it: primitive `type` assertions, arrays with `items`,
objects with `properties` / `required` / `additionalProperties`, the `oneOf`
combinator used by `buildResponseValidatorForOperation`, and the empty schema
`any`. -/
inductive Schema where
  | any
  | strT
  | intT
  | numT
  | boolT
  | arrayT (items : Option Schema)
  | objectT (addProps : Bool) (props : List (String × Schema)) (required : List String)
  | oneOf (alts : List Schema)
deriving Repr

/-- Whether a schema has `type: array` — the check `schema.type === 'array'`
performed by `validateRequest` (validation.ts line 128). -/
def Schema.isArrayType : Schema → Bool
  | .arrayT _ => true
  | _ => false

/-- One Ajv `ErrorObject` as used by the engine: keyword, data path, schema
path and message (validation.ts lines 152–158 construct one literally; the
others come from the Ajv engine). -/
structure ErrorObject where
  keyword : String
  dataPath : String
  schemaPath : String
  message : String
deriving DecidableEq, Repr

/-- The result object of `validateRequest` / `validateResponse`
(validation.ts lines 15–18).  The TypeScript field `errors` is an
`Ajv.ErrorObject[]` that the engine sets to `null` when empty; `none` models
that `null`/absent state. -/
structure ValidationResult where
  valid : Bool
  errors : Option (List ErrorObject)
deriving DecidableEq, Repr

/-- Property lookup on a JavaScript object modelled as an ordered association
list: the value stored under `key`, if any. -/
def lookupKey : List (String × α) → String → Option α
  | [], _ => none
  | (k, v) :: rest, key => if k == key then some v else lookupKey rest key

/-- Property assignment `m[key] = v` on a JavaScript object: replace the value
in place if the key exists (keeping its position), otherwise append. -/
def assocSet : List (String × α) → String → α → List (String × α)
  | [], key, v => [(key, v)]
  | (k, v') :: rest, key, v =>
    if k == key then (key, v) :: rest else (k, v') :: assocSet rest key v

/-- Whether a string is accepted for a numeric/boolean type under Ajv's
`coerceTypes: true` option (a decimal integer literal). -/
def coercibleInt (s : String) : Bool :=
  s.toInt?.isSome

mutual

/-- Modelled from the spec (§4.2 Validator Compiler): evaluation of a compiled
Ajv validator — the external JSON-Schema engine is not part of this
repository.  `c` is the `coerceTypes` profile; `dp`/`sp` are the data path and
schema path carried into error objects.  Returns the error list (empty means
the input is valid).  For `oneOf`, Ajv accepts exactly when exactly one
alternative matches; otherwise it reports a `oneOf` error (and the errors of
failing alternatives). -/
def validate (c : Bool) (s : Schema) (dp sp : String) (j : Json) : List ErrorObject :=
  match s with
  | .any => []
  | .strT =>
    match j with
    | .str _ => []
    | .num _ => if c then [] else [⟨"type", dp, sp ++ "/type", "should be string"⟩]
    | .boolean _ => if c then [] else [⟨"type", dp, sp ++ "/type", "should be string"⟩]
    | _ => [⟨"type", dp, sp ++ "/type", "should be string"⟩]
  | .intT =>
    match j with
    | .num _ => []
    | .str sv =>
      if c && coercibleInt sv then [] else [⟨"type", dp, sp ++ "/type", "should be integer"⟩]
    | _ => [⟨"type", dp, sp ++ "/type", "should be integer"⟩]
  | .numT =>
    match j with
    | .num _ => []
    | .str sv =>
      if c && coercibleInt sv then [] else [⟨"type", dp, sp ++ "/type", "should be number"⟩]
    | _ => [⟨"type", dp, sp ++ "/type", "should be number"⟩]
  | .boolT =>
    match j with
    | .boolean _ => []
    | .str sv =>
      if c && (sv == "true" || sv == "false") then []
      else [⟨"type", dp, sp ++ "/type", "should be boolean"⟩]
    | _ => [⟨"type", dp, sp ++ "/type", "should be boolean"⟩]
  | .arrayT items =>
    match j with
    | .arr xs =>
      match items with
      | none => []
      | some isc => validateItems c isc xs dp sp
    | _ => [⟨"type", dp, sp ++ "/type", "should be array"⟩]
  | .objectT addProps props required =>
    match j with
    | .obj fields =>
      let reqErrs := (required.filter (fun r => (lookupKey fields r).isNone)).map
        (fun r =>
          (⟨"required", dp, sp ++ "/required", "should have required property " ++ r⟩ :
            ErrorObject))
      let propErrs := validateProps c props fields dp sp
      let addErrs := if addProps then [] else
        (fields.filter (fun kv => (lookupKey props kv.1).isNone)).map
          (fun _ =>
            (⟨"additionalProperties", dp, sp ++ "/additionalProperties",
              "should NOT have additional properties"⟩ : ErrorObject))
      reqErrs ++ propErrs ++ addErrs
    | _ => [⟨"type", dp, sp ++ "/type", "should be object"⟩]
  | .oneOf alts =>
    let results := validateAlts c alts dp (sp ++ "/oneOf") j
    let passing := results.filter (fun errs => errs.isEmpty)
    if passing.length == 1 then []
    else results.flatten ++
      [⟨"oneOf", dp, sp ++ "/oneOf", "should match exactly one schema in oneOf"⟩]

/-- Element-wise validation of an array against its `items` schema. -/
def validateItems (c : Bool) (isc : Schema) (xs : List Json) (dp sp : String) :
    List ErrorObject :=
  match xs with
  | [] => []
  | x :: rest =>
    validate c isc (dp ++ "[i]") (sp ++ "/items") x ++ validateItems c isc rest dp sp

/-- Validation of the declared `properties` of an object schema against the
fields that are present. -/
def validateProps (c : Bool) (props : List (String × Schema))
    (fields : List (String × Json)) (dp sp : String) : List ErrorObject :=
  match props with
  | [] => []
  | (k, s) :: rest =>
    (match lookupKey fields k with
     | some v => validate c s (dp ++ "." ++ k) (sp ++ "/properties/" ++ k) v
     | none => []) ++ validateProps c rest fields dp sp

/-- Error lists of each `oneOf` alternative, in order. -/
def validateAlts (c : Bool) (alts : List Schema) (dp sp : String) (j : Json) :
    List (List ErrorObject) :=
  match alts with
  | [] => []
  | a :: rest => validate c a dp sp j :: validateAlts c rest dp sp j

end

/-- One parameter location (`param.in`), restricted as in the spec (§3) to the
four OpenAPI locations. -/
inductive ParamLocation where
  | path
  | query
  | header
  | cookie
deriving DecidableEq, Repr

/-- A dereferenced OpenAPI parameter descriptor as consumed by the engine:
`name`, `in` (here `loc`), `required` and `schema` (spec §3; the engine reads
exactly these fields). -/
structure ParameterObject where
  name : String
  loc : ParamLocation
  required : Bool
  schema : Schema
deriving Repr

/-- An OpenAPI media-type object: the engine only reads its `schema`. -/
structure MediaTypeObject where
  schema : Option Schema
deriving Repr

/-- An OpenAPI request-body object: a map from media type to media-type
object. -/
structure RequestBodyObject where
  content : List (String × MediaTypeObject)
deriving Repr

/-- An OpenAPI response object: an optional map from media type to media-type
object. -/
structure ResponseObject where
  content : Option (List (String × MediaTypeObject))
deriving Repr

/-- An Operation as returned by the router: operationId (optional in the
wire format; operations without one are unusable), path template, dereferenced
parameters, optional request body and optional responses map keyed by status
string. -/
structure Operation where
  operationId : Option String
  path : String
  parameters : List ParameterObject
  requestBody : Option RequestBodyObject
  responses : Option (List (String × ResponseObject))
deriving Repr

/-- The raw body of an incoming request, as seen by the `typeof` checks at
validation.ts line 145: absent (`undefined`), something with
`typeof === 'object'` (objects, arrays, `null`), or a scalar
(strings/numbers/booleans), carried as the string `` `${req.body}` `` that
line 150 feeds to `JSON.parse`. -/
inductive RawBody where
  | absent
  | objectLike (j : Json)
  | scalar (s : String)
deriving Repr

/-- An incoming request: the engine itself reads only `req.body`; everything
else is consumed through the router. -/
structure Request where
  method : String
  path : String
  body : RawBody
deriving Repr

/-- Modelled from the spec (§6): the components the external router's
`parseRequest` extracts from a raw request.  `path`/`query`/`cookie` may be
nil (dropped by the `_.omitBy(…, _.isNil)` at validation.ts line 135);
headers are always present and lower-cased by the router. -/
structure ParsedRequest where
  params : Option (List (String × Json))
  query : Option (List (String × Json))
  headers : List (String × Json)
  cookies : Option (List (String × Json))
  requestBody : Option Json
deriving Repr

/-- Modelled from the spec (§2, §6): the external `OpenAPIRouter`.  Only its
interface is specified — the operation listing, operation matching and lookup,
and request parsing — so it is embedded as a record of those capabilities. -/
structure Router where
  getOperations : List Operation
  matchOperation : Request → Option Operation
  getOperation : String → Option Operation
  parseRequest : Request → String → ParsedRequest

/-- A compiled Ajv validator: the schema it was compiled from and its
`coerceTypes` profile (spec §4.2).  Running it is `CompiledValidator.run`. -/
structure CompiledValidator where
  schema : Schema
  coerce : Bool
deriving Repr

/-- Evaluate a compiled validator on an input, from the root paths. -/
def CompiledValidator.run (cv : CompiledValidator) (j : Json) : List ErrorObject :=
  validate cv.coerce cv.schema "" "#" j

/-- Lodash `_.uniq([...l, x])` when `l` is already duplicate-free: append `x`
unless it is already present (validation.ts line 316). -/
def uniqAppend (l : List String) (x : String) : List String :=
  if l.contains x then l else l ++ [x]

/-- Accumulator for the parameter schema of one operation: the `properties`
and `required` of each of the four location sub-schemas, plus the top-level
`required` list (the mutable `paramsSchema` of validation.ts lines 277–319). -/
structure ParamsAcc where
  pathProps : List (String × Schema)
  pathRequired : List String
  queryProps : List (String × Schema)
  queryRequired : List String
  headerProps : List (String × Schema)
  headerRequired : List String
  cookieProps : List (String × Schema)
  cookieRequired : List String
  topRequired : List String
deriving Repr

/-- The empty skeleton of validation.ts lines 277–308. -/
def emptyParamsAcc : ParamsAcc :=
  ⟨[], [], [], [], [], [], [], [], []⟩

/-- One step of the `parameters.map` loop of validation.ts lines 312–319: if
the parameter is required, push its name onto its location's `required` and
`_.uniq`-append the location to the top-level `required`; then assign its
schema under its name in the location's `properties`. -/
def addParam (acc : ParamsAcc) (param : ParameterObject) : ParamsAcc :=
  match param.loc with
  | .path =>
    let acc := if param.required then
      { acc with pathRequired := acc.pathRequired ++ [param.name],
                 topRequired := uniqAppend acc.topRequired "path" } else acc
    { acc with pathProps := assocSet acc.pathProps param.name param.schema }
  | .query =>
    let acc := if param.required then
      { acc with queryRequired := acc.queryRequired ++ [param.name],
                 topRequired := uniqAppend acc.topRequired "query" } else acc
    { acc with queryProps := assocSet acc.queryProps param.name param.schema }
  | .header =>
    let acc := if param.required then
      { acc with headerRequired := acc.headerRequired ++ [param.name],
                 topRequired := uniqAppend acc.topRequired "header" } else acc
    { acc with headerProps := assocSet acc.headerProps param.name param.schema }
  | .cookie =>
    let acc := if param.required then
      { acc with cookieRequired := acc.cookieRequired ++ [param.name],
                 topRequired := uniqAppend acc.topRequired "cookie" } else acc
    { acc with cookieProps := assocSet acc.cookieProps param.name param.schema }

/-- The parameter `InputValidationSchema` of an operation (validation.ts
lines 277–319): a top-level object schema with `additionalProperties: true`
and the four location sub-schemas — `path` and `query` close additional
properties, `header` and `cookie` tolerate them. -/
def buildParamsSchema (parameters : List ParameterObject) : Schema :=
  let acc := parameters.foldl addParam emptyParamsAcc
  Schema.objectT true
    [("path", Schema.objectT false acc.pathProps acc.pathRequired),
     ("query", Schema.objectT false acc.queryProps acc.queryRequired),
     ("header", Schema.objectT true acc.headerProps acc.headerRequired),
     ("cookie", Schema.objectT true acc.cookieProps acc.cookieRequired)]
    acc.topRequired

/-- `buildRequestValidatorsForOperation` (validation.ts lines 245–325): the
body validator, if the operation declares a JSON body schema — wrapping that
schema under a `requestBody` property, required exactly when
`application/json` is the only declared media type — followed by the
parameter validator, compiled with `coerceTypes: true`.  `c` is the
`coerceTypes` setting of the user-supplied Ajv options, used as-is for the
body validator. -/
def buildRequestValidatorsForOperation (c : Bool) (operation : Operation) :
    List CompiledValidator :=
  let bodyValidators : List CompiledValidator :=
    match operation.requestBody with
    | none => []
    | some requestBody =>
      match lookupKey requestBody.content "application/json" with
      | none => []
      | some jsonbody =>
        match jsonbody.schema with
        | none => []
        | some sch =>
          let required := if requestBody.content.length == 1 then ["requestBody"] else []
          [⟨Schema.objectT true [("requestBody", sch)] required, c⟩]
  bodyValidators ++ [⟨buildParamsSchema operation.parameters, true⟩]

/-- The response schemas collected by the `_.mapKeys` loop of validation.ts
lines 353–358: every `content['application/json'].schema` across the
responses map, in order. -/
def collectResponseSchemas (responses : List (String × ResponseObject)) : List Schema :=
  responses.filterMap (fun kv =>
    match kv.2.content with
    | none => none
    | some content =>
      match lookupKey content "application/json" with
      | none => none
      | some mt => mt.schema)

/-- `buildResponseValidatorForOperation` (validation.ts lines 344–369): no
validator when the operation has no responses map or no collected JSON
schema; otherwise a validator compiled from `{ oneOf: responseSchemas }`. -/
def buildResponseValidatorForOperation (c : Bool) (operation : Operation) :
    Option CompiledValidator :=
  match operation.responses with
  | none => none
  | some responses =>
    let responseSchemas := collectResponseSchemas responses
    if responseSchemas.isEmpty then none
    else some ⟨Schema.oneOf responseSchemas, c⟩

/-- The string under which an operation is registered: JavaScript coerces an
`undefined` operationId used as an object key to the string "undefined". -/
def idKey : Option String → String
  | some s => s
  | none => "undefined"

/-- The `OpenAPIValidator` instance: the stored definition document, the
`coerceTypes` flag of the user Ajv options, the router, and the two validator
registries (validation.ts lines 54–59). -/
structure OpenAPIValidator where
  definition : Json
  ajvCoerce : Bool
  router : Router
  requestValidators : List (String × List CompiledValidator)
  responseValidators : List (String × CompiledValidator)

/-- The constructor (validation.ts lines 69–86): build the router from the
definition (external — `mkRouter` abstracts `new OpenAPIRouter`), then iterate
the router's operations registering first the request validators and then the
response validators under each operationId. -/
def OpenAPIValidator.build (mkRouter : Json → Router) (definition : Json)
    (ajvCoerce : Bool) : OpenAPIValidator :=
  let router := mkRouter definition
  let operations := router.getOperations
  { definition := definition
    ajvCoerce := ajvCoerce
    router := router
    requestValidators := operations.foldl (fun m op =>
      assocSet m (idKey op.operationId) (buildRequestValidatorsForOperation ajvCoerce op)) []
    responseValidators := operations.foldl (fun m op =>
      match buildResponseValidatorForOperation ajvCoerce op with
      | some cv => assocSet m (idKey op.operationId) cv
      | none => m) [] }

/-- The `operation` argument of `validateRequest`/`validateResponse`: a
pre-resolved Operation object or an operationId string. -/
inductive OperationRef where
  | byOperation (op : Operation)
  | byId (id : String)

/-- JavaScript falsiness of `operation.operationId` (validation.ts line 111):
absent or the empty string. -/
def operationIdFalsy : Option String → Bool
  | none => true
  | some s => s == ""

/-- `typeof x === 'object'` for a parsed JSON value: objects, arrays and
`null`. -/
def typeofIsObject : Json → Bool
  | .obj _ => true
  | .arr _ => true
  | .null => true
  | _ => false

/-- One optional location entry of the `InputParameters` object: dropped when
the parsed component is nil (the `_.omitBy` of validation.ts line 135). -/
def optEntry (k : String) : Option (List (String × Json)) → List (String × Json)
  | none => []
  | some fields => [(k, Json.obj fields)]

/-- The error normalization shared by validateRequest (validation.ts lines
176–183) and validateResponse (lines 218–225): an empty error list becomes
`errors` absent with `valid: true`, a non-empty one is kept with
`valid: false`. -/
def mkResult (errs : List ErrorObject) : ValidationResult :=
  if errs.isEmpty then { valid := true, errors := none }
  else { valid := false, errors := some errs }

/-- The query normalization loop of validation.ts lines 123–133: each query
entry whose value is a single string is wrapped into a one-element array when
the operation declares a query parameter of that name with an array-typed
schema. -/
def coerceQueryArrays (parameters : List ParameterObject) (query : List (String × Json)) :
    List (String × Json) :=
  query.map (fun kv =>
    match kv.2 with
    | .str _ =>
      match parameters.find? (fun p => p.name == kv.1 && p.loc == ParamLocation.query) with
      | some p => if p.schema.isArrayType then (kv.1, Json.arr [kv.2]) else kv
      | none => kv
    | _ => kv)

/-- Operation resolution of `validateRequest` (validation.ts lines 105–109):
match the request when no operation is given, look a string up via the
router, use an Operation object as-is. -/
def resolveRequestOperation (v : OpenAPIValidator) (req : Request)
    (operationArg : Option OperationRef) : Option Operation :=
  match operationArg with
  | none => v.router.matchOperation req
  | some (.byOperation op) => some op
  | some (.byId s) => v.router.getOperation s

/-- Operation resolution of `validateResponse` (validation.ts lines
200–202): look a string up via the router, use an Operation object as-is. -/
def resolveResponseOperation (v : OpenAPIValidator) (operationArg : OperationRef) :
    Option Operation :=
  match operationArg with
  | .byOperation op => some op
  | .byId s => v.router.getOperation s

/-- `validateRequest` (validation.ts lines 99–184).  `parseJson` abstracts the
JavaScript `JSON.parse` builtin.  Resolution failures throw (`Except.error`).
When the resolved operationId has no registry entry, line 117 yields
`undefined` and the `for...of` over it at line 169 throws a TypeError; since
everything in between is pure, that throw is modelled at the lookup.
Otherwise the method leaves the instance unchanged and returns it with the
`ValidationResult`. -/
def OpenAPIValidator.validateRequest (parseJson : String → Except String Json)
    (v : OpenAPIValidator) (req : Request) (operationArg : Option OperationRef) :
    Except String (OpenAPIValidator × ValidationResult) :=
  match resolveRequestOperation v req operationArg with
  | none => Except.error "Unknown operation"
  | some operation =>
    if operationIdFalsy operation.operationId then Except.error "Unknown operation"
    else
      match lookupKey v.requestValidators (idKey operation.operationId) with
      | none => Except.error "TypeError: validators is not iterable"
      | some validators =>
      let parsed := v.router.parseRequest req operation.path
      let query := parsed.query.map (coerceQueryArrays operation.parameters)
      let parseErrors : List ErrorObject :=
        match req.body with
        | .scalar s =>
          let payloadFormats := (match operation.requestBody with
            | some rb => rb.content
            | none => []).map Prod.fst
          if payloadFormats.length == 1 && payloadFormats.head? == some "application/json" then
            match parseJson s with
            | .ok _ => []
            | .error msg => [⟨"parse", "", "#/requestBody", msg⟩]
          else []
        | _ => []
      let contentTypeJson : Bool :=
        match lookupKey parsed.headers "content-type" with
        | some (Json.str ct) => ct == "application/json"
        | _ => false
      let attachedBody : List (String × Json) :=
        match parsed.requestBody with
        | some b => if typeofIsObject b || contentTypeJson then [("requestBody", b)] else []
        | none => []
      let inputParameters := Json.obj
        (optEntry "path" parsed.params ++ optEntry "query" query ++
         [("header", Json.obj parsed.headers)] ++ optEntry "cookie" parsed.cookies ++
         attachedBody)
      let validatorErrors := (validators.map (fun cv => cv.run inputParameters)).flatten
      Except.ok (v, mkResult (parseErrors ++ validatorErrors))

/-- `validateResponse` (validation.ts lines 194–226): resolve the operation
(string id via the router), throw on failure, then run the registered
response validator, if any, on the payload and normalize. -/
def OpenAPIValidator.validateResponse (v : OpenAPIValidator) (res : Json)
    (operationArg : OperationRef) :
    Except String (OpenAPIValidator × ValidationResult) :=
  match resolveResponseOperation v operationArg with
  | none => Except.error "Unknown operation"
  | some operation =>
    if operationIdFalsy operation.operationId then Except.error "Unknown operation"
    else
      let operationId := idKey operation.operationId
      let errs : List ErrorObject :=
        match lookupKey v.responseValidators operationId with
        | some cv => cv.run res
        | none => []
      Except.ok (v, mkResult errs)

/-! Concrete fixtures: a small API definition exercising each feature, used
to instantiate the theorems below on closed inputs. -/

/-- An operation with zero parameters and no request body. -/
def opNoParams : Operation :=
  { operationId := some "opNoParams", path := "/plain", parameters := [],
    requestBody := none, responses := none }

/-- An operation with one optional query parameter of array type. -/
def opArrayQuery : Operation :=
  { operationId := some "opArrayQuery", path := "/arr",
    parameters := [⟨"tags", .query, false, .arrayT (some .strT)⟩],
    requestBody := none, responses := none }

/-- An operation accepting only an `application/json` body with a string
schema. -/
def opJsonBody : Operation :=
  { operationId := some "opJsonBody", path := "/body", parameters := [],
    requestBody := some ⟨[("application/json", ⟨some .strT⟩)]⟩, responses := none }

/-- An operation with JSON response schemas for statuses 200 (any value) and
404 (any object). -/
def opTwoResponses : Operation :=
  { operationId := some "opTwoResponses", path := "/resp", parameters := [],
    requestBody := none,
    responses := some
      [("200", ⟨some [("application/json", ⟨some .any⟩)]⟩),
       ("404", ⟨some [("application/json", ⟨some (.objectT true [] [])⟩)]⟩)] }

/-- An operation whose responses map declares no JSON schema. -/
def opNoRespSchema : Operation :=
  { operationId := some "opNoRespSchema", path := "/nors", parameters := [],
    requestBody := none, responses := some [("200", ⟨none⟩)] }

/-- The operation listing of the fixture definition. -/
def exOps : List Operation :=
  [opNoParams, opArrayQuery, opJsonBody, opTwoResponses, opNoRespSchema]

/-- Fixture parsing: the router-parsed components, keyed on the request
path. -/
def exParse (r : Request) (_template : String) : ParsedRequest :=
  if r.path == "/q-foo" then ⟨none, some [("foo", Json.str "bar")], [], none, none⟩
  else if r.path == "/arr-scalar" then ⟨none, some [("tags", Json.str "a")], [], none, none⟩
  else if r.path == "/arr-list" then ⟨none, some [("tags", Json.arr [Json.str "a"])], [], none, none⟩
  else if r.path == "/obj-body" then ⟨none, none, [], none, some (Json.obj [])⟩
  else ⟨none, none, [], none, none⟩

/-- Fixture router over `exOps`; `matchOperation`/`getOperation` resolve
nothing, so explicit operation arguments are used except when exercising the
unknown-operation paths. -/
def exRouter : Router :=
  { getOperations := exOps
    matchOperation := fun _ => none
    getOperation := fun _ => none
    parseRequest := exParse }

/-- Fixture engine instance built over the fixture router. -/
def exValidator : OpenAPIValidator :=
  OpenAPIValidator.build (fun _ => exRouter) Json.null false

/-- Fixture JSON parser: accepts only the text "null", with a fixed failure
message otherwise. -/
def exParseJson : String → Except String Json :=
  fun s => if s == "null" then Except.ok Json.null else Except.error "Unexpected token"

/-! Helper lemmas about the registries and result normalization. -/

theorem lookupKey_assocSet_self (m : List (String × α)) (k : String) (v : α) :
    lookupKey (assocSet m k v) k = some v := by
  induction m with
  | nil => simp [assocSet, lookupKey]
  | cons hd tl ih =>
    obtain ⟨k', v'⟩ := hd
    by_cases h : k' = k
    · simp [assocSet, lookupKey, h]
    · simp only [assocSet, lookupKey]
      rw [if_neg (by simpa using h)]
      simp only [lookupKey]
      rw [if_neg (by simpa using h)]
      exact ih

theorem lookupKey_assocSet_ne (m : List (String × α)) (k key : String) (v : α)
    (h : key ≠ k) : lookupKey (assocSet m k v) key = lookupKey m key := by
  have hk : (k == key) = false := by
    simpa using fun hh => h hh.symm
  induction m with
  | nil => simp [assocSet, lookupKey, hk]
  | cons hd tl ih =>
    obtain ⟨k', v'⟩ := hd
    by_cases hkk : k' = k
    · subst hkk
      simp only [assocSet, lookupKey, beq_self_eq_true, if_true]
      rw [if_neg (by simp [hk]), if_neg (by simp [hk])]
    · simp only [assocSet, lookupKey]
      rw [if_neg (by simpa using hkk)]
      simp only [lookupKey]
      by_cases hke : k' = key
      · simp [hke]
      · rw [if_neg (by simpa using hke), if_neg (by simpa using hke)]
        exact ih

/-- The request-registry fold only touches the keys of the operations it
iterates. -/
theorem lookup_requestFold_not_mem (c : Bool) (ops : List Operation)
    (m : List (String × List CompiledValidator)) (key : String)
    (h : key ∉ ops.map (fun o => idKey o.operationId)) :
    lookupKey (ops.foldl (fun m op =>
      assocSet m (idKey op.operationId) (buildRequestValidatorsForOperation c op)) m) key =
    lookupKey m key := by
  induction ops generalizing m with
  | nil => rfl
  | cons o rest ih =>
    simp only [List.map_cons, List.mem_cons] at h
    push_neg at h
    simp only [List.foldl_cons]
    rw [ih _ h.2, lookupKey_assocSet_ne _ _ _ _ h.1]

/-- Request-registry lookup after construction: with duplicate-free
operationIds, each operation's entry is its built validator list. -/
theorem lookup_requestFold (c : Bool) (ops : List Operation)
    (m : List (String × List CompiledValidator)) (op : Operation)
    (hmem : op ∈ ops)
    (hnodup : (ops.map (fun o => idKey o.operationId)).Nodup) :
    lookupKey (ops.foldl (fun m op =>
      assocSet m (idKey op.operationId) (buildRequestValidatorsForOperation c op)) m)
      (idKey op.operationId) =
    some (buildRequestValidatorsForOperation c op) := by
  induction ops generalizing m with
  | nil => cases hmem
  | cons o rest ih =>
    simp only [List.map_cons, List.nodup_cons] at hnodup
    rcases List.mem_cons.mp hmem with h | h
    · subst h
      simp only [List.foldl_cons]
      rw [lookup_requestFold_not_mem c rest _ _ hnodup.1]
      exact lookupKey_assocSet_self _ _ _
    · simp only [List.foldl_cons]
      exact ih _ h hnodup.2

/-- The response-registry fold only touches the keys of the operations it
iterates. -/
theorem lookup_responseFold_not_mem (c : Bool) (ops : List Operation)
    (m : List (String × CompiledValidator)) (key : String)
    (h : key ∉ ops.map (fun o => idKey o.operationId)) :
    lookupKey (ops.foldl (fun m op =>
      match buildResponseValidatorForOperation c op with
      | some cv => assocSet m (idKey op.operationId) cv
      | none => m) m) key =
    lookupKey m key := by
  induction ops generalizing m with
  | nil => rfl
  | cons o rest ih =>
    simp only [List.map_cons, List.mem_cons] at h
    push_neg at h
    simp only [List.foldl_cons]
    rw [ih _ h.2]
    cases hb : buildResponseValidatorForOperation c o with
    | none => rfl
    | some cv => exact lookupKey_assocSet_ne _ _ _ _ h.1

/-- Response-registry lookup after construction: with duplicate-free
operationIds, each operation's entry is exactly the optional validator its
build step produced. -/
theorem lookup_responseFold (c : Bool) (ops : List Operation)
    (m : List (String × CompiledValidator)) (op : Operation)
    (hmem : op ∈ ops)
    (hnodup : (ops.map (fun o => idKey o.operationId)).Nodup)
    (hm : lookupKey m (idKey op.operationId) = none) :
    lookupKey (ops.foldl (fun m op =>
      match buildResponseValidatorForOperation c op with
      | some cv => assocSet m (idKey op.operationId) cv
      | none => m) m) (idKey op.operationId) =
    buildResponseValidatorForOperation c op := by
  induction ops generalizing m with
  | nil => cases hmem
  | cons o rest ih =>
    simp only [List.map_cons, List.nodup_cons] at hnodup
    rcases List.mem_cons.mp hmem with h | h
    · subst h
      simp only [List.foldl_cons]
      rw [lookup_responseFold_not_mem c rest _ _ hnodup.1]
      rcases hb : buildResponseValidatorForOperation c op with _ | cv
      · simp only [hb, hm]
      · simp only [hb, lookupKey_assocSet_self]
    · simp only [List.foldl_cons]
      rcases hb : buildResponseValidatorForOperation c o with _ | cv
      · simp only [hb]
        exact ih _ h hnodup.2 hm
      · simp only [hb]
        refine ih _ h hnodup.2 ?_
        rw [lookupKey_assocSet_ne, hm]
        intro heq
        exact hnodup.1 (heq ▸ List.mem_map_of_mem (fun x => idKey x.operationId) h)

/-- Registry lookup of a built engine, request side. -/
theorem build_requestValidators_lookup (mkR : Json → Router) (d : Json) (c : Bool)
    (op : Operation) (hmem : op ∈ (mkR d).getOperations)
    (hnodup : ((mkR d).getOperations.map (fun o => idKey o.operationId)).Nodup) :
    lookupKey (OpenAPIValidator.build mkR d c).requestValidators (idKey op.operationId) =
    some (buildRequestValidatorsForOperation c op) := by
  exact lookup_requestFold c _ [] op hmem hnodup

/-- Registry lookup of a built engine, response side. -/
theorem build_responseValidators_lookup (mkR : Json → Router) (d : Json) (c : Bool)
    (op : Operation) (hmem : op ∈ (mkR d).getOperations)
    (hnodup : ((mkR d).getOperations.map (fun o => idKey o.operationId)).Nodup) :
    lookupKey (OpenAPIValidator.build mkR d c).responseValidators (idKey op.operationId) =
    buildResponseValidatorForOperation c op := by
  exact lookup_responseFold c _ [] op hmem hnodup rfl

theorem mkResult_nil : mkResult [] = { valid := true, errors := none } := rfl

theorem mkResult_ne_nil (errs : List ErrorObject) (h : errs ≠ []) :
    mkResult errs = { valid := false, errors := some errs } := by
  simp [mkResult, h]

/-- Every value produced by `mkResult` satisfies the result invariant. -/
theorem mkResult_invariant (errs : List ErrorObject) :
    ((mkResult errs).valid = false ↔ ∃ l, (mkResult errs).errors = some l ∧ l ≠ []) ∧
    ((mkResult errs).valid = true ↔ (mkResult errs).errors = none) ∧
    (mkResult errs).errors ≠ some [] := by
  cases errs with
  | nil => simp [mkResult]
  | cons e rest =>
    refine ⟨?_, ?_, ?_⟩ <;> simp [mkResult]

/-- A successful `validateRequest` call returns the unchanged instance and a
normalized result. -/
theorem validateRequest_ok (pj : String → Except String Json) (v : OpenAPIValidator)
    (req : Request) (oa : Option OperationRef) (p : OpenAPIValidator × ValidationResult)
    (h : v.validateRequest pj req oa = .ok p) :
    p.1 = v ∧ ∃ errs, p.2 = mkResult errs := by
  unfold OpenAPIValidator.validateRequest at h
  split at h
  · cases h
  · split at h
    · cases h
    · split at h
      · cases h
      · simp only [Except.ok.injEq] at h
        subst h
        exact ⟨rfl, _, rfl⟩

/-- A successful `validateResponse` call returns the unchanged instance and a
normalized result. -/
theorem validateResponse_ok (v : OpenAPIValidator) (res : Json) (ob : OperationRef)
    (q : OpenAPIValidator × ValidationResult)
    (h : v.validateResponse res ob = .ok q) :
    q.1 = v ∧ ∃ errs, q.2 = mkResult errs := by
  unfold OpenAPIValidator.validateResponse at h
  split at h
  · cases h
  · split at h
    · cases h
    · simp only [Except.ok.injEq] at h
      subst h
      exact ⟨rfl, _, rfl⟩

/-- The body part of `buildRequestValidatorsForOperation` is zero or one
validator, always followed by exactly the parameter validator. -/
theorem buildRequest_shape (c : Bool) (op : Operation) :
    ∃ bodyPart : Option CompiledValidator,
      buildRequestValidatorsForOperation c op =
        bodyPart.toList ++ [⟨buildParamsSchema op.parameters, true⟩] := by
  unfold buildRequestValidatorsForOperation
  rcases op.requestBody with _ | rb
  · exact ⟨none, rfl⟩
  · rcases h : lookupKey rb.content "application/json" with _ | mt
    · exact ⟨none, by simp [h]⟩
    · rcases hs : mt.schema with _ | sch
      · exact ⟨none, by simp [h, hs]⟩
      · exact ⟨some ⟨Schema.objectT true [("requestBody", sch)]
          (if rb.content.length == 1 then ["requestBody"] else []), c⟩, by simp [h, hs]⟩

/-- C3: for every ValidationResult returned by validateRequest or
validateResponse, `valid = false` iff `errors` is present and non-empty,
`valid = true` iff `errors` is absent, and `errors` is never the empty
list. -/
theorem C3_valid_iff_errors (r : ValidationResult)
    (h : (∃ pj v req oa w, OpenAPIValidator.validateRequest pj v req oa = Except.ok (w, r)) ∨
         (∃ v res ob w, OpenAPIValidator.validateResponse v res ob = Except.ok (w, r))) :
    (r.valid = false ↔ ∃ l, r.errors = some l ∧ l ≠ []) ∧
    (r.valid = true ↔ r.errors = none) ∧ r.errors ≠ some [] := by
  have hr : ∃ errs, r = mkResult errs := by
    rcases h with ⟨pj, v, req, oa, w, h⟩ | ⟨v, res, ob, w, h⟩
    · obtain ⟨-, errs, he⟩ := validateRequest_ok pj v req oa (w, r) h
      exact ⟨errs, he⟩
    · obtain ⟨-, errs, he⟩ := validateResponse_ok v res ob (w, r) h
      exact ⟨errs, he⟩
  obtain ⟨errs, rfl⟩ := hr
  exact mkResult_invariant errs

/-- C3 witness: the invariant holds concretely of the result of a response
validation on the fixture engine. -/
theorem C3_valid_iff_errors_witness :
    ((⟨true, none⟩ : ValidationResult).valid = false ↔
      ∃ l, (⟨true, none⟩ : ValidationResult).errors = some l ∧ l ≠ []) ∧
    ((⟨true, none⟩ : ValidationResult).valid = true ↔
      (⟨true, none⟩ : ValidationResult).errors = none) ∧
    (⟨true, none⟩ : ValidationResult).errors ≠ some [] :=
  C3_valid_iff_errors ⟨true, none⟩
    (Or.inr ⟨exValidator, Json.null, .byOperation opNoParams, exValidator, rfl⟩)

/-- C10: neither validateRequest nor validateResponse modifies the validator
registries or the stored definition: the instance in a successful return is
the one the call started from. -/
theorem C10_no_registry_mutation :
    (∀ (pj : String → Except String Json) (v : OpenAPIValidator) (req : Request)
        (oa : Option OperationRef) (p : OpenAPIValidator × ValidationResult),
        v.validateRequest pj req oa = Except.ok p →
        p.1.requestValidators = v.requestValidators ∧
        p.1.responseValidators = v.responseValidators ∧
        p.1.definition = v.definition) ∧
    (∀ (v : OpenAPIValidator) (res : Json) (ob : OperationRef)
        (q : OpenAPIValidator × ValidationResult),
        v.validateResponse res ob = Except.ok q →
        q.1.requestValidators = v.requestValidators ∧
        q.1.responseValidators = v.responseValidators ∧
        q.1.definition = v.definition) := by
  constructor
  · intro pj v req oa p h
    obtain ⟨h1, -⟩ := validateRequest_ok pj v req oa p h
    rw [h1]
    exact ⟨rfl, rfl, rfl⟩
  · intro v res ob q h
    obtain ⟨h1, -⟩ := validateResponse_ok v res ob q h
    rw [h1]
    exact ⟨rfl, rfl, rfl⟩

/-- C10 witness: a concrete request and a concrete response validation on the
fixture engine leave its request registry unchanged. -/
theorem C10_no_registry_mutation_witness :
    (exValidator.validateRequest exParseJson ⟨"get", "/plain", RawBody.absent⟩
        (some (OperationRef.byOperation opNoParams)) =
      Except.ok (exValidator, ⟨true, none⟩)) ∧
    (exValidator, (⟨true, none⟩ : ValidationResult)).1.requestValidators =
      exValidator.requestValidators ∧
    (exValidator, (⟨true, none⟩ : ValidationResult)).1.responseValidators =
      exValidator.responseValidators := by
  have h : exValidator.validateRequest exParseJson ⟨"get", "/plain", RawBody.absent⟩
      (some (OperationRef.byOperation opNoParams)) =
      Except.ok (exValidator, ⟨true, none⟩) := by
    simp [OpenAPIValidator.validateRequest, resolveRequestOperation, operationIdFalsy, idKey,
      exValidator, OpenAPIValidator.build, exRouter, exOps, exParse, opNoParams, opArrayQuery,
      opJsonBody, opTwoResponses, opNoRespSchema, buildRequestValidatorsForOperation,
      buildResponseValidatorForOperation, collectResponseSchemas, buildParamsSchema, addParam,
      emptyParamsAcc, assocSet, lookupKey, CompiledValidator.run, validate, validateAlts,
      validateProps, validateItems, coerceQueryArrays, optEntry, typeofIsObject, mkResult,
      exParseJson]
  exact ⟨h,
    (C10_no_registry_mutation.1 exParseJson exValidator ⟨"get", "/plain", RawBody.absent⟩
      (some (OperationRef.byOperation opNoParams)) (exValidator, ⟨true, none⟩) h).1,
    (C10_no_registry_mutation.1 exParseJson exValidator ⟨"get", "/plain", RawBody.absent⟩
      (some (OperationRef.byOperation opNoParams)) (exValidator, ⟨true, none⟩) h).2.1⟩

/-- C7: when the operation cannot be resolved, or resolves to an operation
with a falsy operationId, validateRequest and validateResponse throw
"Unknown operation" instead of returning a ValidationResult. -/
theorem C7_unknown_operation_throws :
    (∀ (pj : String → Except String Json) (v : OpenAPIValidator) (req : Request)
        (oa : Option OperationRef),
        (resolveRequestOperation v req oa = none ∨
         ∃ op, resolveRequestOperation v req oa = some op ∧
           operationIdFalsy op.operationId = true) →
        v.validateRequest pj req oa = Except.error "Unknown operation") ∧
    (∀ (v : OpenAPIValidator) (res : Json) (ob : OperationRef),
        (resolveResponseOperation v ob = none ∨
         ∃ op, resolveResponseOperation v ob = some op ∧
           operationIdFalsy op.operationId = true) →
        v.validateResponse res ob = Except.error "Unknown operation") := by
  constructor
  · intro pj v req oa h
    unfold OpenAPIValidator.validateRequest
    rcases h with h | ⟨op, h, hf⟩
    · rw [h]
    · rw [h]
      simp [hf]
  · intro v res ob h
    unfold OpenAPIValidator.validateResponse
    rcases h with h | ⟨op, h, hf⟩
    · rw [h]
    · rw [h]
      simp [hf]

/-- C7 witness: an unmatched request and an unknown operationId both throw on
the fixture engine. -/
theorem C7_unknown_operation_throws_witness :
    (exValidator.validateRequest exParseJson ⟨"get", "/nothing", RawBody.absent⟩ none =
      Except.error "Unknown operation") ∧
    (exValidator.validateResponse Json.null (OperationRef.byId "nope") =
      Except.error "Unknown operation") :=
  ⟨C7_unknown_operation_throws.1 exParseJson exValidator
      ⟨"get", "/nothing", RawBody.absent⟩ none (Or.inl rfl),
   C7_unknown_operation_throws.2 exValidator Json.null (OperationRef.byId "nope")
      (Or.inl rfl)⟩

/-- C9: an operation without a responses map, or whose responses declare no
JSON schema, registers no response validator, and validateResponse on it
returns valid with errors absent for every payload. -/
theorem C9_no_response_validator (mkR : Json → Router) (d : Json) (c : Bool)
    (op : Operation) (id : String) (payload : Json)
    (hmem : op ∈ (mkR d).getOperations)
    (hnodup : ((mkR d).getOperations.map (fun o => idKey o.operationId)).Nodup)
    (hid : op.operationId = some id) (hid2 : id ≠ "")
    (hcase : op.responses = none ∨
      ∃ rs, op.responses = some rs ∧ collectResponseSchemas rs = []) :
    buildResponseValidatorForOperation c op = none ∧
    (OpenAPIValidator.build mkR d c).validateResponse payload (.byOperation op) =
      Except.ok (OpenAPIValidator.build mkR d c, ⟨true, none⟩) := by
  have hb : buildResponseValidatorForOperation c op = none := by
    rcases hcase with h | ⟨rs, h, hcs⟩
    · simp [buildResponseValidatorForOperation, h]
    · simp [buildResponseValidatorForOperation, h, hcs]
  refine ⟨hb, ?_⟩
  have hlook := build_responseValidators_lookup mkR d c op hmem hnodup
  rw [hb, hid] at hlook
  simp only [idKey] at hlook
  unfold OpenAPIValidator.validateResponse
  simp only [resolveResponseOperation]
  rw [hid]
  have hfl : operationIdFalsy (some id) = false := by
    simp [operationIdFalsy, hid2]
  simp only [hfl, Bool.false_eq_true, if_false, idKey, hlook]
  rfl

/-- C9 witness: the fixture operation whose 200 response has no JSON schema
registers no validator and always validates. -/
theorem C9_no_response_validator_witness :
    buildResponseValidatorForOperation false opNoRespSchema = none ∧
    (OpenAPIValidator.build (fun _ => exRouter) Json.null false).validateResponse
        (Json.str "anything") (.byOperation opNoRespSchema) =
      Except.ok (OpenAPIValidator.build (fun _ => exRouter) Json.null false, ⟨true, none⟩) :=
  C9_no_response_validator (fun _ => exRouter) Json.null false opNoRespSchema
    "opNoRespSchema" (Json.str "anything")
    (by simp [exRouter, exOps]) (by decide) rfl (by decide)
    (Or.inr ⟨[("200", ⟨none⟩)], rfl, rfl⟩)

/-- C8: after construction, each listed operation's registry entry is zero or
one body validator followed by exactly the parameter validator, and zero or
one response validator. -/
theorem C8_registry_invariant (mkR : Json → Router) (d : Json) (c : Bool)
    (op : Operation) (id : String)
    (hmem : op ∈ (mkR d).getOperations)
    (hnodup : ((mkR d).getOperations.map (fun o => idKey o.operationId)).Nodup)
    (hid : op.operationId = some id) :
    (∃ bodyPart : Option CompiledValidator,
        lookupKey (OpenAPIValidator.build mkR d c).requestValidators id =
          some (bodyPart.toList ++ [⟨buildParamsSchema op.parameters, true⟩]) ∧
        bodyPart.toList.length ≤ 1) ∧
    lookupKey (OpenAPIValidator.build mkR d c).responseValidators id =
      buildResponseValidatorForOperation c op := by
  have h1 := build_requestValidators_lookup mkR d c op hmem hnodup
  have h2 := build_responseValidators_lookup mkR d c op hmem hnodup
  rw [hid] at h1 h2
  simp only [idKey] at h1 h2
  obtain ⟨bp, hbp⟩ := buildRequest_shape c op
  refine ⟨⟨bp, ?_, ?_⟩, h2⟩
  · rw [h1, hbp]
  · cases bp <;> simp

/-- C8 witness: the registry entry of the JSON-body fixture operation. -/
theorem C8_registry_invariant_witness :
    (∃ bodyPart : Option CompiledValidator,
        lookupKey (OpenAPIValidator.build (fun _ => exRouter) Json.null false).requestValidators
            "opJsonBody" =
          some (bodyPart.toList ++ [⟨buildParamsSchema opJsonBody.parameters, true⟩]) ∧
        bodyPart.toList.length ≤ 1) ∧
    lookupKey (OpenAPIValidator.build (fun _ => exRouter) Json.null false).responseValidators
        "opJsonBody" =
      buildResponseValidatorForOperation false opJsonBody :=
  C8_registry_invariant (fun _ => exRouter) Json.null false opJsonBody "opJsonBody"
    (by simp [exRouter, exOps]) (by decide) rfl

theorem validateAlts_eq_map (c : Bool) (alts : List Schema) (dp sp : String) (j : Json) :
    validateAlts c alts dp sp j = alts.map (fun a => validate c a dp sp j) := by
  induction alts with
  | nil => simp [validateAlts]
  | cons a rest ih => simp [validateAlts, ih]

theorem filter_map_length (f : α → β) (p : β → Bool) (l : List α) :
    ((l.map f).filter p).length = (l.filter (fun a => p (f a))).length := by
  induction l with
  | nil => rfl
  | cons a rest ih =>
    by_cases h : p (f a) <;> simp [List.filter_cons, h, ih]

/-- An Ajv `oneOf` validator accepts exactly when exactly one alternative
matches. -/
theorem validate_oneOf_nil_iff (c : Bool) (alts : List Schema) (dp sp : String) (j : Json) :
    validate c (Schema.oneOf alts) dp sp j = [] ↔
      (alts.filter (fun a => (validate c a dp (sp ++ "/oneOf") j).isEmpty)).length = 1 := by
  have hlen : ((validateAlts c alts dp (sp ++ "/oneOf") j).filter
        (fun errs => errs.isEmpty)).length =
      (alts.filter (fun a => (validate c a dp (sp ++ "/oneOf") j).isEmpty)).length := by
    rw [validateAlts_eq_map]
    exact filter_map_length _ _ _
  simp only [validate]
  rw [hlen]
  by_cases h : (alts.filter (fun a => (validate c a dp (sp ++ "/oneOf") j).isEmpty)).length = 1
  · simp [h]
  · simp [h]

/-- C1 (amended): the compiled response validator uses JSON Schema `oneOf`,
so validateResponse accepts a payload exactly when it matches exactly one of
the collected per-status response schemas. -/
theorem C1_response_exactly_one (mkR : Json → Router) (d : Json) (c : Bool)
    (op : Operation) (id : String) (rs : List (String × ResponseObject)) (payload : Json)
    (hmem : op ∈ (mkR d).getOperations)
    (hnodup : ((mkR d).getOperations.map (fun o => idKey o.operationId)).Nodup)
    (hid : op.operationId = some id) (hid2 : id ≠ "")
    (hresp : op.responses = some rs)
    (hne : collectResponseSchemas rs ≠ []) :
    ((OpenAPIValidator.build mkR d c).validateResponse payload (.byOperation op)).map
        (fun p => p.2.valid) =
      Except.ok (((collectResponseSchemas rs).filter
        (fun s => (validate c s "" "#/oneOf" payload).isEmpty)).length == 1) := by
  have hb : buildResponseValidatorForOperation c op =
      some ⟨Schema.oneOf (collectResponseSchemas rs), c⟩ := by
    simp only [buildResponseValidatorForOperation, hresp]
    rw [if_neg (by simpa [List.isEmpty_iff] using hne)]
  have hlook := build_responseValidators_lookup mkR d c op hmem hnodup
  rw [hb, hid] at hlook
  simp only [idKey] at hlook
  have hfl : operationIdFalsy (some id) = false := by
    simp [operationIdFalsy, hid2]
  unfold OpenAPIValidator.validateResponse
  simp only [resolveResponseOperation]
  rw [hid]
  simp only [hfl, Bool.false_eq_true, if_false, idKey, hlook]
  have hrun : CompiledValidator.run ⟨Schema.oneOf (collectResponseSchemas rs), c⟩ payload =
      validate c (Schema.oneOf (collectResponseSchemas rs)) "" "#" payload := rfl
  rw [hrun]
  by_cases h : ((collectResponseSchemas rs).filter
      (fun s => (validate c s "" "#/oneOf" payload).isEmpty)).length = 1
  · have hnil : validate c (Schema.oneOf (collectResponseSchemas rs)) "" "#" payload = [] :=
      (validate_oneOf_nil_iff c _ "" "#" payload).mpr h
    rw [hnil]
    simp [mkResult, Except.map, h]
  · have hnil : validate c (Schema.oneOf (collectResponseSchemas rs)) "" "#" payload ≠ [] := by
      intro hc
      exact h ((validate_oneOf_nil_iff c _ "" "#" payload).mp hc)
    rw [mkResult_ne_nil _ hnil]
    simp [Except.map, h]

/-- C1 witness: on the fixture operation with 200/404 response schemas, a
payload matching exactly the 200 schema is accepted. -/
theorem C1_response_exactly_one_witness :
    ((OpenAPIValidator.build (fun _ => exRouter) Json.null false).validateResponse
        (Json.str "x") (.byOperation opTwoResponses)).map (fun p => p.2.valid) =
      Except.ok true := by
  have h := C1_response_exactly_one (fun _ => exRouter) Json.null false opTwoResponses
    "opTwoResponses"
    [("200", ⟨some [("application/json", ⟨some .any⟩)]⟩),
     ("404", ⟨some [("application/json", ⟨some (.objectT true [] [])⟩)]⟩)]
    (Json.str "x")
    (by simp [exRouter, exOps]) (by decide) rfl (by decide) rfl
    (by simp [collectResponseSchemas, lookupKey])
  rw [h]
  simp [collectResponseSchemas, lookupKey, validate, validateAlts, validateProps]

/-- C1 counterexample: a payload that matches two of the collected response
schemas simultaneously (the 200 schema accepts anything, the 404 schema any
object) is rejected by validateResponse, refuting the at-least-one (logical
OR) reading. -/
theorem C1_claim_counterexample :
    validate false Schema.any "" "#/oneOf" (Json.obj []) = [] ∧
    validate false (Schema.objectT true [] []) "" "#/oneOf" (Json.obj []) = [] ∧
    ((OpenAPIValidator.build (fun _ => exRouter) Json.null false).validateResponse
        (Json.obj []) (.byOperation opTwoResponses)).map (fun p => p.2) =
      Except.ok ⟨false, some [⟨"oneOf", "", "#/oneOf",
        "should match exactly one schema in oneOf"⟩]⟩ := by
  refine ⟨by simp [validate], by simp [validate, validateProps], ?_⟩
  simp [OpenAPIValidator.validateResponse, resolveResponseOperation, operationIdFalsy, idKey,
    OpenAPIValidator.build, exRouter, exOps, exParse, opNoParams, opArrayQuery, opJsonBody,
    opTwoResponses, opNoRespSchema, buildResponseValidatorForOperation, collectResponseSchemas,
    buildRequestValidatorsForOperation, buildParamsSchema, addParam, emptyParamsAcc, assocSet,
    lookupKey, CompiledValidator.run, validate, validateAlts, validateProps, validateItems,
    mkResult, Except.map]

/-- The router stored by a built engine is the one made from the
definition. -/
theorem build_router (mkR : Json → Router) (d : Json) (c : Bool) :
    (OpenAPIValidator.build mkR d c).router = mkR d := rfl

/-- The always-compiled parameter validator of an operation with zero
parameters accepts every input whose `path` and `query` components are absent
or empty objects, whatever the headers, cookies and attached body. -/
theorem paramsValidator_run_nil (F : List (String × Json))
    (h1 : lookupKey F "path" = none ∨ lookupKey F "path" = some (Json.obj []))
    (h2 : lookupKey F "query" = none ∨ lookupKey F "query" = some (Json.obj []))
    (h3 : lookupKey F "header" = none ∨ ∃ hs, lookupKey F "header" = some (Json.obj hs))
    (h4 : lookupKey F "cookie" = none ∨ ∃ cs, lookupKey F "cookie" = some (Json.obj cs)) :
    validate true (buildParamsSchema []) "" "#" (Json.obj F) = [] := by
  rcases h1 with h1 | h1 <;> rcases h2 with h2 | h2 <;>
    rcases h3 with h3 | ⟨hsf, h3⟩ <;> rcases h4 with h4 | ⟨csf, h4⟩ <;>
      simp [buildParamsSchema, emptyParamsAcc, validate, validateProps, h1, h2, h3, h4]

/-- C2 (amended): on an operation with zero parameters and no body schema,
validateRequest returns valid with no errors for every request whose parsed
path parameters and query are absent or empty — arbitrary headers, cookies
and bodies are accepted, but (contrary to the claim) unknown query keys are
not. -/
theorem C2_no_params_no_body (mkR : Json → Router) (d : Json) (c : Bool)
    (op : Operation) (id : String) (pj : String → Except String Json) (req : Request)
    (hmem : op ∈ (mkR d).getOperations)
    (hnodup : ((mkR d).getOperations.map (fun o => idKey o.operationId)).Nodup)
    (hid : op.operationId = some id) (hid2 : id ≠ "")
    (hparams : op.parameters = [])
    (hbody : op.requestBody = none)
    (hpq : ((mkR d).parseRequest req op.path).params = none ∨
      ((mkR d).parseRequest req op.path).params = some [])
    (hqq : ((mkR d).parseRequest req op.path).query = none ∨
      ((mkR d).parseRequest req op.path).query = some []) :
    (OpenAPIValidator.build mkR d c).validateRequest pj req (some (.byOperation op)) =
      Except.ok (OpenAPIValidator.build mkR d c, ⟨true, none⟩) := by
  have hlook := build_requestValidators_lookup mkR d c op hmem hnodup
  rw [hid] at hlook
  simp only [idKey] at hlook
  have hbv : buildRequestValidatorsForOperation c op = [⟨buildParamsSchema [], true⟩] := by
    simp [buildRequestValidatorsForOperation, hbody, hparams]
  rw [hbv] at hlook
  have hfl : operationIdFalsy op.operationId = false := by
    rw [hid]
    simp [operationIdFalsy, hid2]
  unfold OpenAPIValidator.validateRequest
  simp only [resolveRequestOperation, hfl, Bool.false_eq_true, if_false]
  rw [hid]
  simp only [idKey, build_router, hlook]
  have hpe : (match req.body with
      | RawBody.scalar s =>
        let payloadFormats := (match op.requestBody with
          | some rb => rb.content
          | none => []).map Prod.fst
        if (payloadFormats.length == 1 && payloadFormats.head? == some "application/json") = true then
          match pj s with
          | Except.ok _ => ([] : List ErrorObject)
          | Except.error msg =>
            [⟨"parse", "", "#/requestBody", msg⟩]
        else []
      | _ => ([] : List ErrorObject)) = [] := by
    rcases req.body with _ | j | s <;> simp [hbody]
  rw [hparams, hpe]
  rcases hab : ((mkR d).parseRequest req op.path).requestBody with _ | b
  · rcases hcc : ((mkR d).parseRequest req op.path).cookies with _ | cs <;>
      rcases hpq with hpq | hpq <;> rcases hqq with hqq | hqq <;>
        simp [hab, hcc, hpq, hqq, CompiledValidator.run, mkResult, coerceQueryArrays,
          optEntry, lookupKey, paramsValidator_run_nil]
  · simp only [hab]
    split <;>
      rcases hcc : ((mkR d).parseRequest req op.path).cookies with _ | cs <;>
        rcases hpq with hpq | hpq <;> rcases hqq with hqq | hqq <;>
          simp [hcc, hpq, hqq, CompiledValidator.run, mkResult, coerceQueryArrays,
            optEntry, lookupKey, paramsValidator_run_nil]

/-- C2 witness: a plain request on the zero-parameter fixture operation
validates. -/
theorem C2_no_params_no_body_witness :
    (OpenAPIValidator.build (fun _ => exRouter) Json.null false).validateRequest exParseJson
        ⟨"get", "/plain", RawBody.absent⟩ (some (.byOperation opNoParams)) =
      Except.ok (OpenAPIValidator.build (fun _ => exRouter) Json.null false, ⟨true, none⟩) :=
  C2_no_params_no_body (fun _ => exRouter) Json.null false opNoParams "opNoParams"
    exParseJson ⟨"get", "/plain", RawBody.absent⟩
    (by simp [exRouter, exOps]) (by decide) rfl (by decide) rfl rfl
    (Or.inl rfl) (Or.inl rfl)

/-- C2 counterexample: the same zero-parameter operation rejects a request
carrying an arbitrary query-string key, because the synthesized query
sub-schema closes additional properties — refuting "valid for any request
including arbitrary query-string keys". -/
theorem C2_claim_counterexample :
    opNoParams.parameters = [] ∧ opNoParams.requestBody = none ∧
    ((OpenAPIValidator.build (fun _ => exRouter) Json.null false).validateRequest exParseJson
        ⟨"get", "/q-foo", RawBody.absent⟩ (some (.byOperation opNoParams))).map (fun p => p.2) =
      Except.ok ⟨false, some [⟨"additionalProperties", ".query",
        "#/properties/query/additionalProperties", "should NOT have additional properties"⟩]⟩ := by
  refine ⟨rfl, rfl, ?_⟩
  simp [OpenAPIValidator.validateRequest, resolveRequestOperation, operationIdFalsy, idKey,
    OpenAPIValidator.build, exRouter, exOps, exParse, opNoParams, opArrayQuery, opJsonBody,
    opTwoResponses, opNoRespSchema, buildRequestValidatorsForOperation,
    buildResponseValidatorForOperation, collectResponseSchemas, buildParamsSchema, addParam,
    emptyParamsAcc, assocSet, lookupKey, CompiledValidator.run, validate, validateAlts,
    validateProps, validateItems, coerceQueryArrays, optEntry, typeofIsObject, mkResult,
    Except.map, exParseJson]

/-- Wrapping a scalar query entry declared array-typed yields the same
normalized query as an explicit one-element sequence. -/
theorem coerceQueryArrays_entry (params : List ParameterObject) (name s : String)
    (pre post : List (String × Json)) (p : ParameterObject)
    (hfind : params.find? (fun q => q.name == name && q.loc == ParamLocation.query) = some p)
    (harr : p.schema.isArrayType = true) :
    coerceQueryArrays params (pre ++ (name, Json.str s) :: post) =
    coerceQueryArrays params (pre ++ (name, Json.arr [Json.str s]) :: post) := by
  simp [coerceQueryArrays, hfind, harr]

/-- C4: for an operation declaring an array-typed query parameter, a request
whose parsed query carries the scalar string and one whose parsed query
carries the one-element sequence produce identical validateRequest results. -/
theorem C4_scalar_query_equals_singleton (pj : String → Except String Json)
    (v : OpenAPIValidator) (req1 req2 : Request) (op : Operation) (name s : String)
    (pre post : List (String × Json)) (base : ParsedRequest) (p : ParameterObject)
    (hfind : op.parameters.find? (fun q => q.name == name && q.loc == ParamLocation.query) =
      some p)
    (harr : p.schema.isArrayType = true)
    (hp1 : v.router.parseRequest req1 op.path =
      { base with query := some (pre ++ (name, Json.str s) :: post) })
    (hp2 : v.router.parseRequest req2 op.path =
      { base with query := some (pre ++ (name, Json.arr [Json.str s]) :: post) })
    (hbody : req1.body = req2.body) :
    v.validateRequest pj req1 (some (.byOperation op)) =
    v.validateRequest pj req2 (some (.byOperation op)) := by
  unfold OpenAPIValidator.validateRequest
  simp only [resolveRequestOperation]
  rw [hp1, hp2, hbody]
  simp only [Option.map]
  rw [coerceQueryArrays_entry op.parameters name s pre post p hfind harr]

/-- C4 witness: the two fixture requests carrying `tags=a` as a scalar and as
a one-element sequence validate identically. -/
theorem C4_scalar_query_equals_singleton_witness :
    (OpenAPIValidator.build (fun _ => exRouter) Json.null false).validateRequest exParseJson
        ⟨"get", "/arr-scalar", RawBody.absent⟩ (some (.byOperation opArrayQuery)) =
    (OpenAPIValidator.build (fun _ => exRouter) Json.null false).validateRequest exParseJson
        ⟨"get", "/arr-list", RawBody.absent⟩ (some (.byOperation opArrayQuery)) :=
  C4_scalar_query_equals_singleton exParseJson
    (OpenAPIValidator.build (fun _ => exRouter) Json.null false)
    ⟨"get", "/arr-scalar", RawBody.absent⟩ ⟨"get", "/arr-list", RawBody.absent⟩
    opArrayQuery "tags" "a" [] [] ⟨none, none, [], none, none⟩
    ⟨"tags", .query, false, .arrayT (some .strT)⟩ rfl rfl rfl rfl rfl

mutual

/-- No error produced by the Ajv engine model carries the synthetic `parse`
keyword: its keywords are only `type`, `required`, `additionalProperties` and
`oneOf`. -/
theorem validate_no_parse (c : Bool) (s : Schema) (dp sp : String) (j : Json) :
    ∀ e ∈ validate c s dp sp j, e.keyword ≠ "parse" := by
  intro e he
  match s with
  | .any => simp [validate] at he
  | .strT =>
    cases j <;> simp only [validate] at he <;> (try split at he) <;> simp at he <;>
      subst he <;> simp
  | .intT =>
    cases j <;> simp only [validate] at he <;> (try split at he) <;> simp at he <;>
      subst he <;> simp
  | .numT =>
    cases j <;> simp only [validate] at he <;> (try split at he) <;> simp at he <;>
      subst he <;> simp
  | .boolT =>
    cases j <;> simp only [validate] at he <;> (try split at he) <;> simp at he <;>
      subst he <;> simp
  | .arrayT items =>
    cases j with
    | arr xs =>
      cases items with
      | none => simp [validate] at he
      | some isc =>
        simp only [validate] at he
        exact validateItems_no_parse c isc xs dp sp e he
    | null => simp only [validate] at he; simp at he; subst he; simp
    | boolean b => simp only [validate] at he; simp at he; subst he; simp
    | num n => simp only [validate] at he; simp at he; subst he; simp
    | str sv => simp only [validate] at he; simp at he; subst he; simp
    | obj fs => simp only [validate] at he; simp at he; subst he; simp
  | .objectT ap props required =>
    cases j with
    | obj fields =>
      simp only [validate, List.mem_append] at he
      rcases he with (he | he) | he
      · obtain ⟨r, -, rfl⟩ := List.mem_map.mp he
        simp
      · exact validateProps_no_parse c props fields dp sp e he
      · split at he
        · simp at he
        · obtain ⟨kv, -, rfl⟩ := List.mem_map.mp he
          simp
    | null => simp only [validate] at he; simp at he; subst he; simp
    | boolean b => simp only [validate] at he; simp at he; subst he; simp
    | num n => simp only [validate] at he; simp at he; subst he; simp
    | str sv => simp only [validate] at he; simp at he; subst he; simp
    | arr xs => simp only [validate] at he; simp at he; subst he; simp
  | .oneOf alts =>
    simp only [validate] at he
    split at he
    · simp at he
    · simp only [List.mem_append] at he
      rcases he with he | he
      · obtain ⟨l, hl, hel⟩ := List.mem_flatten.mp he
        exact validateAlts_no_parse c alts dp (sp ++ "/oneOf") j l hl e hel
      · simp at he
        subst he
        simp

theorem validateItems_no_parse (c : Bool) (isc : Schema) (xs : List Json) (dp sp : String) :
    ∀ e ∈ validateItems c isc xs dp sp, e.keyword ≠ "parse" := by
  intro e he
  match xs with
  | [] => simp [validateItems] at he
  | x :: rest =>
    simp only [validateItems, List.mem_append] at he
    rcases he with he | he
    · exact validate_no_parse c isc _ _ x e he
    · exact validateItems_no_parse c isc rest dp sp e he

theorem validateProps_no_parse (c : Bool) (props : List (String × Schema))
    (fields : List (String × Json)) (dp sp : String) :
    ∀ e ∈ validateProps c props fields dp sp, e.keyword ≠ "parse" := by
  intro e he
  match props with
  | [] => simp [validateProps] at he
  | (k, sc) :: rest =>
    simp only [validateProps, List.mem_append] at he
    rcases he with he | he
    · rcases hlk : lookupKey fields k with _ | v
      · rw [hlk] at he
        simp at he
      · rw [hlk] at he
        exact validate_no_parse c sc _ _ v e he
    · exact validateProps_no_parse c rest fields dp sp e he

theorem validateAlts_no_parse (c : Bool) (alts : List Schema) (dp sp : String) (j : Json) :
    ∀ l ∈ validateAlts c alts dp sp j, ∀ e ∈ l, e.keyword ≠ "parse" := by
  intro l hl e he
  match alts with
  | [] => simp [validateAlts] at hl
  | a :: rest =>
    simp only [validateAlts, List.mem_cons] at hl
    rcases hl with rfl | hl
    · exact validate_no_parse c a dp sp j e he
    · exact validateAlts_no_parse c rest dp sp j l hl e he

end

/-- The synthesized body schema on an input with no `requestBody` key yields
exactly the one missing-required error. -/
theorem bodyValidator_missing_required (c : Bool) (sch : Schema) (F : List (String × Json))
    (h : lookupKey F "requestBody" = none) :
    validate c (Schema.objectT true [("requestBody", sch)] ["requestBody"]) "" "#"
      (Json.obj F) =
    [⟨"required", "", "#/required", "should have required property requestBody"⟩] := by
  simp [validate, validateProps, h]

/-- The synthesized body schema on an input carrying a `requestBody` key
evaluates the declared body schema on that value. -/
theorem bodyValidator_present (c : Bool) (sch : Schema) (F : List (String × Json)) (bj : Json)
    (h : lookupKey F "requestBody" = some bj) :
    validate c (Schema.objectT true [("requestBody", sch)] ["requestBody"]) "" "#"
      (Json.obj F) =
    validate c sch ".requestBody" "#/properties/requestBody" bj := by
  simp [validate, validateProps, h]

/-- C5: the synthesized body schema marks `requestBody` as required exactly
when `application/json` is the only declared media type, and on such a
JSON-only operation omitting the body yields exactly one error referencing
`requestBody` as missing/required. -/
theorem C5_body_required_iff_json_only :
    (∀ (c : Bool) (op : Operation) (rb : RequestBodyObject) (mt : MediaTypeObject)
        (sch : Schema),
        op.requestBody = some rb →
        lookupKey rb.content "application/json" = some mt →
        mt.schema = some sch →
        buildRequestValidatorsForOperation c op =
          [⟨Schema.objectT true [("requestBody", sch)]
              (if rb.content.length == 1 then ["requestBody"] else []), c⟩,
           ⟨buildParamsSchema op.parameters, true⟩]) ∧
    (∀ (mkR : Json → Router) (d : Json) (c : Bool) (op : Operation) (id : String)
        (pj : String → Except String Json) (req : Request) (sch : Schema),
        op ∈ (mkR d).getOperations →
        ((mkR d).getOperations.map (fun o => idKey o.operationId)).Nodup →
        op.operationId = some id → id ≠ "" →
        op.parameters = [] →
        op.requestBody = some ⟨[("application/json", ⟨some sch⟩)]⟩ →
        req.body = RawBody.absent →
        (((mkR d).parseRequest req op.path).params = none ∨
          ((mkR d).parseRequest req op.path).params = some []) →
        (((mkR d).parseRequest req op.path).query = none ∨
          ((mkR d).parseRequest req op.path).query = some []) →
        ((mkR d).parseRequest req op.path).requestBody = none →
        ((OpenAPIValidator.build mkR d c).validateRequest pj req
            (some (.byOperation op))).map (fun p => p.2) =
          Except.ok ⟨false, some [⟨"required", "", "#/required",
            "should have required property requestBody"⟩]⟩) := by
  constructor
  · intro c op rb mt sch h1 h2 h3
    simp [buildRequestValidatorsForOperation, h1, h2, h3]
  · intro mkR d c op id pj req sch hmem hnodup hid hid2 hparams hrb hreqbody hpq hqq hprb
    have hlook := build_requestValidators_lookup mkR d c op hmem hnodup
    rw [hid] at hlook
    simp only [idKey] at hlook
    have hbv : buildRequestValidatorsForOperation c op =
        [⟨Schema.objectT true [("requestBody", sch)] ["requestBody"], c⟩,
         ⟨buildParamsSchema [], true⟩] := by
      simp [buildRequestValidatorsForOperation, hrb, hparams, lookupKey]
    rw [hbv] at hlook
    have hfl : operationIdFalsy op.operationId = false := by
      rw [hid]
      simp [operationIdFalsy, hid2]
    unfold OpenAPIValidator.validateRequest
    simp only [resolveRequestOperation, hfl, Bool.false_eq_true, if_false]
    rw [hid]
    simp only [idKey, build_router, hlook]
    rw [hparams, hreqbody]
    rcases hcc : ((mkR d).parseRequest req op.path).cookies with _ | cs <;>
      rcases hpq with hpq | hpq <;> rcases hqq with hqq | hqq <;>
        simp [hprb, hcc, hpq, hqq, CompiledValidator.run, mkResult, coerceQueryArrays,
          optEntry, lookupKey, paramsValidator_run_nil, bodyValidator_missing_required,
          Except.map]

/-- C5 witness: building the JSON-only fixture operation marks the body
required, and a bodyless request to it yields exactly the one required
error. -/
theorem C5_body_required_iff_json_only_witness :
    buildRequestValidatorsForOperation false opJsonBody =
      [⟨Schema.objectT true [("requestBody", Schema.strT)] ["requestBody"], false⟩,
       ⟨buildParamsSchema opJsonBody.parameters, true⟩] ∧
    ((OpenAPIValidator.build (fun _ => exRouter) Json.null false).validateRequest exParseJson
        ⟨"post", "/plain", RawBody.absent⟩ (some (.byOperation opJsonBody))).map
        (fun p => p.2) =
      Except.ok ⟨false, some [⟨"required", "", "#/required",
        "should have required property requestBody"⟩]⟩ :=
  ⟨by
    have h := C5_body_required_iff_json_only.1 false opJsonBody
      ⟨[("application/json", ⟨some Schema.strT⟩)]⟩ ⟨some Schema.strT⟩ Schema.strT
      rfl rfl rfl
    simpa using h,
   C5_body_required_iff_json_only.2 (fun _ => exRouter) Json.null false opJsonBody
    "opJsonBody" exParseJson ⟨"post", "/plain", RawBody.absent⟩ Schema.strT
    (by simp [exRouter, exOps]) (by decide) rfl (by decide) rfl rfl rfl
    (Or.inl rfl) (Or.inl rfl) rfl⟩

/-- C6: on a JSON-only-body operation, an unparsable scalar body appends the
synthetic parse error (keyword `parse`, data path `""`, schema path
`#/requestBody`, message from the parser) without aborting — the body
validator still runs and its missing-required error follows — while a body
that parses but violates the body schema yields only that schema's errors,
none carrying the parse keyword. -/
theorem C6_malformed_body_precheck :
    (∀ (mkR : Json → Router) (d : Json) (c : Bool) (op : Operation) (id : String)
        (pj : String → Except String Json) (req : Request) (sch : Schema)
        (bs msg : String),
        op ∈ (mkR d).getOperations →
        ((mkR d).getOperations.map (fun o => idKey o.operationId)).Nodup →
        op.operationId = some id → id ≠ "" →
        op.parameters = [] →
        op.requestBody = some ⟨[("application/json", ⟨some sch⟩)]⟩ →
        req.body = RawBody.scalar bs →
        pj bs = Except.error msg →
        (((mkR d).parseRequest req op.path).params = none ∨
          ((mkR d).parseRequest req op.path).params = some []) →
        (((mkR d).parseRequest req op.path).query = none ∨
          ((mkR d).parseRequest req op.path).query = some []) →
        ((mkR d).parseRequest req op.path).requestBody = none →
        ((OpenAPIValidator.build mkR d c).validateRequest pj req
            (some (.byOperation op))).map (fun p => p.2) =
          Except.ok ⟨false, some [⟨"parse", "", "#/requestBody", msg⟩,
            ⟨"required", "", "#/required",
              "should have required property requestBody"⟩]⟩) ∧
    (∀ (mkR : Json → Router) (d : Json) (c : Bool) (op : Operation) (id : String)
        (pj : String → Except String Json) (req : Request) (sch : Schema)
        (bs : String) (pjv bj : Json),
        op ∈ (mkR d).getOperations →
        ((mkR d).getOperations.map (fun o => idKey o.operationId)).Nodup →
        op.operationId = some id → id ≠ "" →
        op.parameters = [] →
        op.requestBody = some ⟨[("application/json", ⟨some sch⟩)]⟩ →
        req.body = RawBody.scalar bs →
        pj bs = Except.ok pjv →
        (((mkR d).parseRequest req op.path).params = none ∨
          ((mkR d).parseRequest req op.path).params = some []) →
        (((mkR d).parseRequest req op.path).query = none ∨
          ((mkR d).parseRequest req op.path).query = some []) →
        ((mkR d).parseRequest req op.path).requestBody = some bj →
        typeofIsObject bj = true →
        ((OpenAPIValidator.build mkR d c).validateRequest pj req
            (some (.byOperation op))).map (fun p => p.2) =
          Except.ok (mkResult
            (validate c sch ".requestBody" "#/properties/requestBody" bj)) ∧
        ∀ e ∈ validate c sch ".requestBody" "#/properties/requestBody" bj,
          e.keyword ≠ "parse") := by
  constructor
  · intro mkR d c op id pj req sch bs msg hmem hnodup hid hid2 hparams hrb hreqbody hpj
      hpq hqq hprb
    have hlook := build_requestValidators_lookup mkR d c op hmem hnodup
    rw [hid] at hlook
    simp only [idKey] at hlook
    have hbv : buildRequestValidatorsForOperation c op =
        [⟨Schema.objectT true [("requestBody", sch)] ["requestBody"], c⟩,
         ⟨buildParamsSchema [], true⟩] := by
      simp [buildRequestValidatorsForOperation, hrb, hparams, lookupKey]
    rw [hbv] at hlook
    have hfl : operationIdFalsy op.operationId = false := by
      rw [hid]
      simp [operationIdFalsy, hid2]
    unfold OpenAPIValidator.validateRequest
    simp only [resolveRequestOperation, hfl, Bool.false_eq_true, if_false]
    rw [hid]
    simp only [idKey, build_router, hlook]
    rw [hparams, hreqbody, hrb]
    rcases hcc : ((mkR d).parseRequest req op.path).cookies with _ | cs <;>
      rcases hpq with hpq | hpq <;> rcases hqq with hqq | hqq <;>
        simp [hpj, hprb, hcc, hpq, hqq, CompiledValidator.run, mkResult, coerceQueryArrays,
          optEntry, lookupKey, paramsValidator_run_nil, bodyValidator_missing_required,
          Except.map]
  · intro mkR d c op id pj req sch bs pjv bj hmem hnodup hid hid2 hparams hrb hreqbody hpj
      hpq hqq hprb hbj
    refine ⟨?_, fun e he => validate_no_parse c sch _ _ bj e he⟩
    have hlook := build_requestValidators_lookup mkR d c op hmem hnodup
    rw [hid] at hlook
    simp only [idKey] at hlook
    have hbv : buildRequestValidatorsForOperation c op =
        [⟨Schema.objectT true [("requestBody", sch)] ["requestBody"], c⟩,
         ⟨buildParamsSchema [], true⟩] := by
      simp [buildRequestValidatorsForOperation, hrb, hparams, lookupKey]
    rw [hbv] at hlook
    have hfl : operationIdFalsy op.operationId = false := by
      rw [hid]
      simp [operationIdFalsy, hid2]
    unfold OpenAPIValidator.validateRequest
    simp only [resolveRequestOperation, hfl, Bool.false_eq_true, if_false]
    rw [hid]
    simp only [idKey, build_router, hlook]
    rw [hparams, hreqbody, hrb]
    rcases hcc : ((mkR d).parseRequest req op.path).cookies with _ | cs <;>
      rcases hpq with hpq | hpq <;> rcases hqq with hqq | hqq <;>
        simp [hpj, hprb, hbj, hcc, hpq, hqq, CompiledValidator.run, mkResult,
          coerceQueryArrays, optEntry, lookupKey, paramsValidator_run_nil,
          bodyValidator_present, Except.map]

/-- C6 witness: an unparsable body on the JSON-only fixture operation yields
the synthetic parse error followed by the still-running body validator's
required error; an object body violating the string schema yields only a
type-keyword error. -/
theorem C6_malformed_body_precheck_witness :
    (((OpenAPIValidator.build (fun _ => exRouter) Json.null false).validateRequest exParseJson
        ⟨"post", "/plain", RawBody.scalar "garbage"⟩ (some (.byOperation opJsonBody))).map
        (fun p => p.2) =
      Except.ok ⟨false, some [⟨"parse", "", "#/requestBody", "Unexpected token"⟩,
        ⟨"required", "", "#/required", "should have required property requestBody"⟩]⟩) ∧
    (((OpenAPIValidator.build (fun _ => exRouter) Json.null false).validateRequest exParseJson
        ⟨"post", "/obj-body", RawBody.scalar "null"⟩ (some (.byOperation opJsonBody))).map
        (fun p => p.2) =
      Except.ok (mkResult (validate false Schema.strT ".requestBody"
        "#/properties/requestBody" (Json.obj [])))) :=
  ⟨C6_malformed_body_precheck.1 (fun _ => exRouter) Json.null false opJsonBody "opJsonBody"
      exParseJson ⟨"post", "/plain", RawBody.scalar "garbage"⟩ Schema.strT "garbage"
      "Unexpected token"
      (by simp [exRouter, exOps]) (by decide) rfl (by decide) rfl rfl rfl rfl
      (Or.inl rfl) (Or.inl rfl) rfl,
   (C6_malformed_body_precheck.2 (fun _ => exRouter) Json.null false opJsonBody "opJsonBody"
      exParseJson ⟨"post", "/obj-body", RawBody.scalar "null"⟩ Schema.strT "null"
      Json.null (Json.obj [])
      (by simp [exRouter, exOps]) (by decide) rfl (by decide) rfl rfl rfl rfl
      (Or.inl rfl) (Or.inl rfl) rfl rfl).1⟩

end OpenAPIBackend
